import Mathlib

/-!
Verification of the Gyneo cycle-tracking client (src/src/App.tsx).

Shallow embedding conventions:
* Calendar dates are modelled at day granularity: a date string `YYYY-MM-DD`
  becomes an integer day number.  All millisecond arithmetic of the source
  (differences divided by 86 400 000, then `Math.abs` / `Math.ceil` /
  `Math.round`) is exact at this granularity and collapses to integer
  differences and absolute values.
* A JS field holding `null` or `undefined` is modelled as `Option.none`
  wherever the source only distinguishes truthiness (which is the case for
  every read of `flow` and `mood` in the source).
* `Partial<DailyLog>` payload fields are doubly optional: the outer `Option`
  records whether the key is present in the payload, the inner value is the
  (possibly null) field value.
-/

namespace Gyneo

/-- Flow intensity recorded for a day (`DailyLog.flow` in App.tsx). -/
inductive Flow
  | Spotting
  | Light
  | Medium
  | Heavy
deriving DecidableEq, Repr

/-- A daily log record as held in the client's `logs` state.  `flow = none`
models both `null` and `undefined` (all reads in the source are truthiness
tests or `!== null`, and every writer stores the `flow` key).  The Firestore
document id (the date string) is determined by `date` and not repeated. -/
structure DailyLog where
  date : Int
  flow : Option Flow
  mood : Option String
  symptoms : List String
  createdAt : Int
deriving DecidableEq, Repr

/-- `UserSettings` from App.tsx: average cycle length and period length. -/
structure UserSettings where
  cycleLength : Int
  periodLength : Int
deriving DecidableEq, Repr

/-- The three derived dashboard values set by `calculateCycleStats`
(`setCurrentDay`, `setDaysUntilNext`, `setIsPeriodToday`). -/
structure CycleStats where
  currentDay : Int
  daysUntilNext : Int
  isPeriodToday : Bool
deriving DecidableEq, Repr

/-- Stable insertion into a list sorted descending by `key`; models one step
of `Array.prototype.sort` (stable in JS) with the comparator
`(a, b) => new Date(b.date) - new Date(a.date)`. -/
def insertDescBy (key : DailyLog → Int) (x : DailyLog) : List DailyLog → List DailyLog
  | [] => [x]
  | y :: ys => if key y ≤ key x then x :: y :: ys else y :: insertDescBy key x ys

/-- Stable sort, descending by `key` (insertion sort). -/
def sortDescBy (key : DailyLog → Int) (l : List DailyLog) : List DailyLog :=
  l.foldr (insertDescBy key) []

/-- `currentLogs.filter(l => l.flow !== null).sort((a, b) => date desc)`
from `calculateCycleStats`. -/
def flowLogsOf (logs : List DailyLog) : List DailyLog :=
  sortDescBy (fun l => l.date) (logs.filter (fun l => l.flow.isSome))

/-- The loop of `calculateCycleStats` that pushes `flowLogs[i].date` whenever
the gap to the previous (more recent) flow log exceeds 7 days; `prev` is the
date of the previously visited flow log. -/
def periodStartsAux (prev : Int) : List DailyLog → List Int
  | [] => []
  | l :: rest =>
    if 7 < (prev - l.date).natAbs then l.date :: periodStartsAux l.date rest
    else periodStartsAux l.date rest

/-- `periodStarts` from `calculateCycleStats`: the most recent flow date,
followed by the first (most recent) flow date of each earlier group, where a
new group begins at a gap of more than 7 days between consecutive
descending-sorted flow dates. -/
def periodStarts : List DailyLog → List Int
  | [] => []
  | l0 :: rest => l0.date :: periodStartsAux l0.date rest

/-- The gap-collection loop: consecutive differences of `periodStarts`, kept
only when `gap > 20 && gap < 45` (the source's outlier filter). -/
def survivingGaps : List Int → List Nat
  | a :: b :: rest =>
    if 20 < (a - b).natAbs ∧ (a - b).natAbs < 45 then
      (a - b).natAbs :: survivingGaps (b :: rest)
    else survivingGaps (b :: rest)
  | _ => []

/-- `Math.round(total / count)` for natural `total` and positive `count`:
round half up, computed as `⌊(2 * total + count) / (2 * count)⌋`. -/
def jsRoundAvg (total count : Nat) : Nat :=
  (2 * total + count) / (2 * count)

/-- The predicted cycle length of `calculateCycleStats` (lines 667-708):
requires at least two flow logs and at least two period starts and at least
one surviving gap, otherwise falls back to `settings.cycleLength`.  The
argument `fl` is the descending-sorted flow-log list. -/
def predictedCycleLength (fl : List DailyLog) (s : UserSettings) : Int :=
  if 2 ≤ fl.length then
    let ps := periodStarts fl
    if 2 ≤ ps.length then
      let gs := survivingGaps ps
      if 0 < gs.length then ((jsRoundAvg (gs.foldl (fun t g => t + g) 0) gs.length : Nat) : Int)
      else s.cycleLength
    else s.cycleLength
  else s.cycleLength

/-- `calculateCycleStats` (App.tsx lines 636-721).  With day-granularity
dates, `Math.ceil(Math.abs(today - start) / oneDay)` is the absolute day
difference. -/
def calculateCycleStats (logs : List DailyLog) (s : UserSettings) (today : Int) : CycleStats :=
  let fl := flowLogsOf logs
  match fl with
  | [] => ⟨1, 28, false⟩
  | l0 :: _ =>
    let diffDays : Int := ((today - l0.date).natAbs : Int)
    let predicted := predictedCycleLength fl s
    ⟨diffDays, max 0 (predicted - diffDays),
      logs.any (fun l => l.date == today && l.flow.isSome)⟩

/-- C1: for a log list containing exactly one flow entry (and any settings),
the current cycle day equals the days elapsed since that entry's date, and
days-until-next equals the configured cycle length minus the current day,
floored at 0. -/
theorem cycleStats_single_flow_entry (logs : List DailyLog) (s : UserSettings)
    (today : Int) (e : DailyLog)
    (hone : logs.filter (fun l => l.flow.isSome) = [e])
    (hpast : e.date ≤ today) :
    (calculateCycleStats logs s today).currentDay = today - e.date ∧
    (calculateCycleStats logs s today).daysUntilNext =
      max 0 (s.cycleLength - (today - e.date)) := by
  have hfl : flowLogsOf logs = [e] := by
    simp [flowLogsOf, hone, sortDescBy, insertDescBy]
  have habs : (((today - e.date).natAbs : Nat) : Int) = today - e.date :=
    Int.natAbs_of_nonneg (by omega)
  simp [calculateCycleStats, hfl, predictedCycleLength, habs]

/-- Witness for C1 at a concrete input: one flow entry on day 5, today day 12,
cycle length 30. -/
theorem cycleStats_single_flow_entry_witness :
    (calculateCycleStats [(⟨5, some Flow.Medium, none, [], 0⟩ : DailyLog)] ⟨30, 6⟩ 12).currentDay = 12 - 5 ∧
    (calculateCycleStats [(⟨5, some Flow.Medium, none, [], 0⟩ : DailyLog)] ⟨30, 6⟩ 12).daysUntilNext =
      max 0 ((30 : Int) - (12 - 5)) :=
  cycleStats_single_flow_entry
    [(⟨5, some Flow.Medium, none, [], 0⟩ : DailyLog)] ⟨30, 6⟩ 12
    ⟨5, some Flow.Medium, none, [], 0⟩ (by decide) (by decide)

/-- C9: with no flow entries at all, the stats are reset to the fixed
defaults current day 1, days-until-next 28 (a literal constant, independent
of the configured cycle length) and period-today false. -/
theorem cycleStats_no_flow_defaults (logs : List DailyLog) (s : UserSettings)
    (today : Int)
    (hnone : logs.filter (fun l => l.flow.isSome) = []) :
    calculateCycleStats logs s today = ⟨1, 28, false⟩ := by
  have hfl : flowLogsOf logs = [] := by
    simp [flowLogsOf, hnone, sortDescBy]
  simp [calculateCycleStats, hfl]

/-- Witness for C9: a log list with only flowless entries and a non-default
cycle length still yields the constant defaults. -/
theorem cycleStats_no_flow_defaults_witness :
    calculateCycleStats [(⟨3, none, some "Happy", ["Cramps"], 0⟩ : DailyLog)] ⟨99, 9⟩ 10 =
      ⟨1, 28, false⟩ :=
  cycleStats_no_flow_defaults [(⟨3, none, some "Happy", ["Cramps"], 0⟩ : DailyLog)] ⟨99, 9⟩ 10
    (by decide)

theorem length_insertDescBy (key : DailyLog → Int) (x : DailyLog) (l : List DailyLog) :
    (insertDescBy key x l).length = l.length + 1 := by
  induction l with
  | nil => rfl
  | cons y ys ih =>
    simp only [insertDescBy]
    split
    · simp
    · simp [ih]

theorem length_sortDescBy (key : DailyLog → Int) (l : List DailyLog) :
    (sortDescBy key l).length = l.length := by
  induction l with
  | nil => rfl
  | cons x xs ih =>
    show (insertDescBy key x (sortDescBy key xs)).length = xs.length + 1
    rw [length_insertDescBy, ih]

/-- The predicted cycle length when the grouping loop produced exactly two
period starts `a` (most recent flow date) and `b` (most recent flow date of
the older group): the gap is kept only when strictly inside `(20, 45)`. -/
theorem predicted_of_ps_pair (fl : List DailyLog) (s : UserSettings) (a b : Int)
    (hlen : 2 ≤ fl.length) (hps : periodStarts fl = [a, b]) :
    predictedCycleLength fl s =
      if 20 < (a - b).natAbs ∧ (a - b).natAbs < 45 then (((a - b).natAbs : Nat) : Int)
      else s.cycleLength := by
  by_cases hg : 20 < (a - b).natAbs ∧ (a - b).natAbs < 45
  · simp [predictedCycleLength, hps, hlen, survivingGaps, hg, jsRoundAvg]
    omega
  · simp [predictedCycleLength, hps, hlen, survivingGaps, hg]

/-- C2 counterexample: two singleton flow groups whose start-to-start gap is
exactly 20 days, which lies inside the claim's closed interval `[20, 45]`.
The claim asserts the predicted cycle length equals the gap (20), but the
source filter `gap > 20 && gap < 45` discards it, and the configured length
28 is used instead. -/
theorem predicted_closed_interval_counterexample :
    periodStarts (flowLogsOf
      [(⟨20, some Flow.Medium, none, [], 0⟩ : DailyLog),
       (⟨0, some Flow.Medium, none, [], 0⟩ : DailyLog)]) = [20, 0] ∧
    ((20 : Int) - 0).natAbs = 20 ∧
    predictedCycleLength (flowLogsOf
      [(⟨20, some Flow.Medium, none, [], 0⟩ : DailyLog),
       (⟨0, some Flow.Medium, none, [], 0⟩ : DailyLog)]) ⟨28, 5⟩ = 28 ∧
    (28 : Int) ≠ 20 := by decide

/-- C2 (amended): the gap between the reference dates of two consecutive
flow groups (each group's most recent flow date) becomes the predicted cycle
length exactly when it is strictly greater than 20 and strictly less than 45
days; otherwise it is discarded and, as when fewer than two flow logs exist,
the configured average cycle length is used. -/
theorem predicted_two_groups_open_interval (s : UserSettings) :
    (∀ (logs : List DailyLog) (a b : Int),
      periodStarts (flowLogsOf logs) = [a, b] →
      (20 < (a - b).natAbs ∧ (a - b).natAbs < 45 →
        predictedCycleLength (flowLogsOf logs) s = (((a - b).natAbs : Nat) : Int)) ∧
      (¬(20 < (a - b).natAbs ∧ (a - b).natAbs < 45) →
        predictedCycleLength (flowLogsOf logs) s = s.cycleLength)) ∧
    (∀ logs : List DailyLog,
      (logs.filter (fun l => l.flow.isSome)).length < 2 →
      predictedCycleLength (flowLogsOf logs) s = s.cycleLength) := by
  constructor
  · intro logs a b hps
    have hlen : 2 ≤ (flowLogsOf logs).length := by
      rcases hfl : flowLogsOf logs with _ | ⟨l0, _ | ⟨l1, rest2⟩⟩
      · rw [hfl] at hps
        simp [periodStarts] at hps
      · rw [hfl] at hps
        simp [periodStarts, periodStartsAux] at hps
      · simp only [List.length_cons]
        omega
    have h := predicted_of_ps_pair (flowLogsOf logs) s a b hlen hps
    constructor
    · intro hg
      rw [h, if_pos hg]
    · intro hg
      rw [h, if_neg hg]
  · intro logs hlt
    have hlen : (flowLogsOf logs).length = (logs.filter (fun l => l.flow.isSome)).length :=
      length_sortDescBy _ _
    unfold predictedCycleLength
    rw [if_neg (by omega)]

/-- Witness for C2 (amended): a surviving gap of 30 days is used verbatim;
a single flow log falls back to the configured length 28. -/
theorem predicted_two_groups_open_interval_witness :
    predictedCycleLength (flowLogsOf
      [(⟨30, some Flow.Medium, none, [], 0⟩ : DailyLog),
       (⟨0, some Flow.Light, none, [], 0⟩ : DailyLog)]) ⟨28, 5⟩ = 30 ∧
    predictedCycleLength (flowLogsOf [(⟨4, some Flow.Medium, none, [], 0⟩ : DailyLog)]) ⟨28, 5⟩ = 28 := by
  constructor
  · have h := ((predicted_two_groups_open_interval ⟨28, 5⟩).1
      [(⟨30, some Flow.Medium, none, [], 0⟩ : DailyLog),
       (⟨0, some Flow.Light, none, [], 0⟩ : DailyLog)]
      30 0 (by decide)).1 (by decide)
    simpa using h
  · exact (predicted_two_groups_open_interval ⟨28, 5⟩).2
      [(⟨4, some Flow.Medium, none, [], 0⟩ : DailyLog)] (by decide)

/-- A `Partial<DailyLog>` save payload (`handleLogSave` argument).  `date` is
always present (`data.date!`).  For the other fields the outer `Option`
records presence of the key, the inner value is the possibly-null field. -/
structure LogPayload where
  date : Int
  flow : Option (Option Flow)
  mood : Option (Option String)
  symptoms : Option (List String)
deriving DecidableEq, Repr

/-- JS object spread `{...l, ...data}` on one field: a key present in the
payload overwrites, an absent key keeps the base value. -/
def mergeJoin {α : Type} (pv : Option (Option α)) (b : Option α) : Option α :=
  match pv with
  | some v => v
  | none => b

/-- `{...l, ...data}` of the optimistic update in `handleLogSave`:
`date` is always present in `data`; `createdAt` never is. -/
def applyPayload (l : DailyLog) (p : LogPayload) : DailyLog :=
  ⟨p.date, mergeJoin p.flow l.flow, mergeJoin p.mood l.mood,
   p.symptoms.getD l.symptoms, l.createdAt⟩

/-- `{id: dateStr, createdAt: Timestamp.now(), ...data}`: a key absent from
the payload is `undefined` on the created object; every reader treats an
undefined `flow`/`mood` like null and coerces undefined `symptoms` with
`|| []`, so absence is modelled as `none` / `[]`. -/
def newLogFromPayload (now : Int) (p : LogPayload) : DailyLog :=
  ⟨p.date, p.flow.join, p.mood.join, p.symptoms.getD [], now⟩

/-- The optimistic local update of `handleLogSave` (App.tsx lines 738-745):
if an entry with the payload's date exists, map the merge over the list,
otherwise prepend a fresh entry. -/
def logSaveLocal (now : Int) (logs : List DailyLog) (p : LogPayload) : List DailyLog :=
  match logs.find? (fun l => l.date == p.date) with
  | some _ => logs.map (fun l => if l.date == p.date then applyPayload l p else l)
  | none => newLogFromPayload now p :: logs

/-- `handleTogglePeriod` (App.tsx lines 767-777): if the date has an entry
with a truthy flow, save `{date, flow: null}`, else save
`{date, flow: 'Medium'}`. -/
def handleTogglePeriod (now : Int) (logs : List DailyLog) (d : Int) : List DailyLog :=
  match logs.find? (fun l => l.date == d) with
  | some l =>
    if l.flow.isSome then logSaveLocal now logs ⟨d, some none, none, none⟩
    else logSaveLocal now logs ⟨d, some (some Flow.Medium), none, none⟩
  | none => logSaveLocal now logs ⟨d, some (some Flow.Medium), none, none⟩

/-- The flow recorded for date `d` in the local list (`none` both when no
entry exists and when the entry's flow is null). -/
def flowAt (logs : List DailyLog) (d : Int) : Option Flow :=
  match logs.find? (fun l => l.date == d) with
  | some l => l.flow
  | none => none

/-- The dates of the local log list, in order. -/
def datesOf (logs : List DailyLog) : List Int :=
  logs.map (fun l => l.date)

theorem find?_save_map (d : Int) (p : LogPayload) (hd : p.date = d) (logs : List DailyLog) :
    (logs.map (fun l => if l.date == d then applyPayload l p else l)).find? (fun l => l.date == d)
      = (logs.find? (fun l => l.date == d)).map (fun l => applyPayload l p) := by
  induction logs with
  | nil => rfl
  | cons y ys ih =>
    cases hyb : y.date == d with
    | true =>
      have hb2 : ((applyPayload y p).date == d) = true := by simp [applyPayload, hd]
      simp [List.find?, hyb, hb2]
    | false => simpa [List.find?, hyb] using ih

theorem flowAt_logSaveLocal (now : Int) (logs : List DailyLog) (p : LogPayload)
    (d : Int) (v : Option Flow) (hd : p.date = d) (hv : p.flow = some v) :
    flowAt (logSaveLocal now logs p) d = v := by
  unfold logSaveLocal
  rw [hd]
  cases hf : logs.find? (fun l => l.date == d) with
  | none => simp [flowAt, List.find?, newLogFromPayload, hd, hv]
  | some l =>
    unfold flowAt
    rw [find?_save_map d p hd logs, hf]
    simp [applyPayload, hv, mergeJoin]

/-- One calendar toggle, seen through `flowAt`: a truthy flow is cleared,
a falsy one becomes Medium. -/
theorem flowAt_toggle (now : Int) (logs : List DailyLog) (d : Int) :
    flowAt (handleTogglePeriod now logs d) d =
      if (flowAt logs d).isSome then (none : Option Flow) else some Flow.Medium := by
  unfold handleTogglePeriod
  cases hf : logs.find? (fun l => l.date == d) with
  | none =>
    have hnone : flowAt logs d = none := by
      unfold flowAt
      rw [hf]
    rw [hnone]
    simp only [Option.isSome_none, Bool.false_eq_true, if_false]
    exact flowAt_logSaveLocal now logs _ d (some Flow.Medium) rfl rfl
  | some l =>
    have hsome : flowAt logs d = l.flow := by
      unfold flowAt
      rw [hf]
    rw [hsome]
    show flowAt (if l.flow.isSome then logSaveLocal now logs ⟨d, some none, none, none⟩
        else logSaveLocal now logs ⟨d, some (some Flow.Medium), none, none⟩) d =
      if l.flow.isSome then none else some Flow.Medium
    cases l.flow with
    | none =>
      simp only [Option.isSome_none, Bool.false_eq_true, if_false]
      exact flowAt_logSaveLocal now logs _ d (some Flow.Medium) rfl rfl
    | some f =>
      simp only [Option.isSome_some, if_true]
      exact flowAt_logSaveLocal now logs _ d none rfl rfl

/-- C4: toggling period status on a date in a no-flow state records flow
"Medium" for that date, and toggling the same date again clears it, so two
toggles return the date to a no-flow state. -/
theorem togglePeriod_twice (n1 n2 : Int) (logs : List DailyLog) (d : Int)
    (h : flowAt logs d = none) :
    flowAt (handleTogglePeriod n1 logs d) d = some Flow.Medium ∧
    flowAt (handleTogglePeriod n2 (handleTogglePeriod n1 logs d) d) d = none := by
  have h1 : flowAt (handleTogglePeriod n1 logs d) d = some Flow.Medium := by
    rw [flowAt_toggle, h]
    simp
  have h2 : flowAt (handleTogglePeriod n2 (handleTogglePeriod n1 logs d) d) d = none := by
    rw [flowAt_toggle, h1]
    simp
  exact ⟨h1, h2⟩

/-- Witness for C4: a date with no entry at all gains flow Medium on the
first toggle and loses it on the second. -/
theorem togglePeriod_twice_witness :
    flowAt (handleTogglePeriod 1 [] 7) 7 = some Flow.Medium ∧
    flowAt (handleTogglePeriod 2 (handleTogglePeriod 1 [] 7) 7) 7 = none :=
  togglePeriod_twice 1 2 [] 7 (by decide)

theorem datesOf_save_map (d : Int) (p : LogPayload) (hd : p.date = d) (logs : List DailyLog) :
    datesOf (logs.map (fun l => if l.date == d then applyPayload l p else l)) = datesOf logs := by
  unfold datesOf
  rw [List.map_map]
  apply List.map_congr_left
  intro l _
  by_cases hy : l.date = d
  · simp [Function.comp, hy, applyPayload, hd]
  · simp [Function.comp, hy]

theorem nodup_logSaveLocal (now : Int) (logs : List DailyLog) (p : LogPayload)
    (h : (datesOf logs).Nodup) : (datesOf (logSaveLocal now logs p)).Nodup := by
  unfold logSaveLocal
  cases hf : logs.find? (fun l => l.date == p.date) with
  | some l =>
    rw [datesOf_save_map p.date p rfl logs]
    exact h
  | none =>
    have hnot : ∀ l ∈ logs, ¬(l.date == p.date) = true := by
      intro l hl
      exact List.find?_eq_none.mp hf l hl
    have hmem : p.date ∉ datesOf logs := by
      intro hmem
      obtain ⟨l, hl, hld⟩ := List.mem_map.mp hmem
      exact hnot l hl (by simp [hld])
    have hcons : datesOf (newLogFromPayload now p :: logs) = p.date :: datesOf logs := rfl
    rw [hcons, List.nodup_cons]
    exact ⟨hmem, h⟩

/-- A single UI operation on the local log list: a daily-log save or a
calendar period toggle. -/
inductive LogOp
  | save (now : Int) (p : LogPayload)
  | toggle (now : Int) (d : Int)

def applyOp (logs : List DailyLog) : LogOp → List DailyLog
  | LogOp.save now p => logSaveLocal now logs p
  | LogOp.toggle now d => handleTogglePeriod now logs d

def applyOps (logs : List DailyLog) (ops : List LogOp) : List DailyLog :=
  ops.foldl applyOp logs

theorem nodup_applyOp (logs : List DailyLog) (op : LogOp)
    (h : (datesOf logs).Nodup) : (datesOf (applyOp logs op)).Nodup := by
  cases op with
  | save now p => exact nodup_logSaveLocal now logs p h
  | toggle now d =>
    show (datesOf (handleTogglePeriod now logs d)).Nodup
    unfold handleTogglePeriod
    cases logs.find? (fun l => l.date == d) with
    | none => exact nodup_logSaveLocal now logs _ h
    | some l =>
      show (datesOf (if l.flow.isSome then logSaveLocal now logs ⟨d, some none, none, none⟩
          else logSaveLocal now logs ⟨d, some (some Flow.Medium), none, none⟩)).Nodup
      by_cases hfl : l.flow.isSome = true
      · rw [if_pos hfl]
        exact nodup_logSaveLocal now logs _ h
      · rw [if_neg hfl]
        exact nodup_logSaveLocal now logs _ h

/-- C7: starting from a local log list with pairwise distinct dates, any
sequence of log-save and toggle operations preserves the invariant that
there is at most one log per calendar date. -/
theorem logs_unique_dates_invariant (logs : List DailyLog) (ops : List LogOp)
    (h : (datesOf logs).Nodup) : (datesOf (applyOps logs ops)).Nodup := by
  induction ops generalizing logs with
  | nil => exact h
  | cons op ops ih => exact ih (applyOp logs op) (nodup_applyOp logs op h)

/-- Witness for C7: a save of a new date followed by two toggles keeps the
dates distinct. -/
theorem logs_unique_dates_invariant_witness :
    (datesOf (applyOps [(⟨5, some Flow.Heavy, none, [], 0⟩ : DailyLog)]
      [LogOp.save 1 ⟨6, some (some Flow.Light), none, none⟩,
       LogOp.toggle 2 5, LogOp.toggle 3 7])).Nodup :=
  logs_unique_dates_invariant [(⟨5, some Flow.Heavy, none, [], 0⟩ : DailyLog)]
    [LogOp.save 1 ⟨6, some (some Flow.Light), none, none⟩,
     LogOp.toggle 2 5, LogOp.toggle 3 7] (by decide)

/-- C10: the optimistic local update never removes an entry: it either
leaves the list of dates unchanged (merge into the matching entry) or
prepends the payload's date, and in both cases an entry for the payload's
date is present afterwards, even when the payload has all fields empty. -/
theorem logSave_local_never_removes (now : Int) (logs : List DailyLog) (p : LogPayload) :
    p.date ∈ datesOf (logSaveLocal now logs p) ∧
    (datesOf (logSaveLocal now logs p) = datesOf logs ∨
      datesOf (logSaveLocal now logs p) = p.date :: datesOf logs) := by
  unfold logSaveLocal
  cases hf : logs.find? (fun l => l.date == p.date) with
  | some l =>
    have heq : datesOf (logs.map fun l => if l.date == p.date then applyPayload l p else l)
        = datesOf logs := datesOf_save_map p.date p rfl logs
    refine ⟨?_, Or.inl heq⟩
    rw [heq]
    have hl : l ∈ logs := List.mem_of_find?_eq_some hf
    have hld : l.date = p.date := by
      have hb := List.find?_some hf
      simpa using hb
    exact hld ▸ List.mem_map_of_mem _ hl
  | none =>
    have hcons : datesOf (newLogFromPayload now p :: logs) = p.date :: datesOf logs := rfl
    rw [hcons]
    exact ⟨List.mem_cons_self _ _, Or.inr rfl⟩

/-- JS truthiness of the payload's flow: absent and null are falsy, any flow
level is truthy (`!data.flow`). -/
def flowFalsy : Option (Option Flow) → Bool
  | none => true
  | some none => true
  | some (some _) => false

/-- JS truthiness of the payload's mood (`!data.mood`): absent, null and the
empty string are falsy. -/
def moodFalsy : Option (Option String) → Bool
  | none => true
  | some none => true
  | some (some m) => m == ""

/-- `!data.symptoms || data.symptoms.length === 0`: absent or empty. -/
def symptomsEmptyJs : Option (List String) → Bool
  | none => true
  | some l => l.isEmpty

/-- The deletion test of `handleLogSave` (App.tsx line 754):
`!data.flow && !data.mood && (!data.symptoms || data.symptoms.length === 0)`. -/
def payloadEmpty (p : LogPayload) : Bool :=
  flowFalsy p.flow && moodFalsy p.mood && symptomsEmptyJs p.symptoms

/-- A stored Firestore log document: each field may be absent (outer `none`)
or hold a possibly-null value; Firestore distinguishes absent from null. -/
structure LogDoc where
  date : Option Int
  flow : Option (Option Flow)
  mood : Option (Option String)
  symptoms : Option (List String)
deriving DecidableEq, Repr

/-- The base used by a merge into a non-existent document. -/
def emptyDocBase : LogDoc := ⟨none, none, none, none⟩

/-- Firestore merge on one field: a field present in the payload overwrites
(null included), an absent field keeps the stored value. -/
def mergeField {α : Type} (pv b : Option α) : Option α :=
  match pv with
  | some v => some v
  | none => b

/-- `setDoc(docRef, {...data}, {merge: true})`: the payload's present fields
overwrite the stored document's fields; `date` is always present. -/
def mergeDoc (existing : Option LogDoc) (p : LogPayload) : LogDoc :=
  let base := existing.getD emptyDocBase
  ⟨some p.date, mergeField p.flow base.flow, mergeField p.mood base.mood,
   mergeField p.symptoms base.symptoms⟩

/-- The remote branch of `handleLogSave` (App.tsx lines 749-759) acting on
the stored record for the payload's date: delete when the payload is empty,
otherwise merge-write. -/
def handleLogSaveRemote (existing : Option LogDoc) (p : LogPayload) : Option LogDoc :=
  if payloadEmpty p then none else some (mergeDoc existing p)

/-- Spec-side predicate, written from the claim's words: the save "would
leave all fields empty", i.e. the record the merge would produce has no
flow, no mood and no symptoms. -/
def wouldLeaveAllFieldsEmpty (existing : Option LogDoc) (p : LogPayload) : Bool :=
  let m := mergeDoc existing p
  flowFalsy m.flow && moodFalsy m.mood && symptomsEmptyJs m.symptoms

/-- C3 counterexample: the stored record has flow Medium and mood "Happy";
the toggle-off payload `{date, flow: null}` carries no mood key, so under
merge semantics the save would leave mood "Happy" (not all fields empty),
yet the source deletes the document because the deletion test looks only at
the payload. -/
theorem logSave_delete_counterexample :
    handleLogSaveRemote
        (some ⟨some 0, some (some Flow.Medium), some (some "Happy"), none⟩)
        ⟨0, some none, none, none⟩ = none ∧
    wouldLeaveAllFieldsEmpty
        (some ⟨some 0, some (some Flow.Medium), some (some "Happy"), none⟩)
        ⟨0, some none, none, none⟩ = false := by decide

/-- C3 (amended): saving deletes the stored record exactly when the payload
itself carries no flow, no mood and no symptoms (fields of the existing
record absent from the payload are not consulted); otherwise the record is
merge-updated, and any field absent from the payload is preserved. -/
theorem logSave_delete_iff_payload_empty (existing : Option LogDoc) (p : LogPayload) :
    (handleLogSaveRemote existing p = none ↔ payloadEmpty p = true) ∧
    (payloadEmpty p = false → handleLogSaveRemote existing p = some (mergeDoc existing p)) ∧
    (p.flow = none → (mergeDoc existing p).flow = (existing.getD emptyDocBase).flow) ∧
    (p.mood = none → (mergeDoc existing p).mood = (existing.getD emptyDocBase).mood) ∧
    (p.symptoms = none → (mergeDoc existing p).symptoms = (existing.getD emptyDocBase).symptoms) := by
  refine ⟨?_, ?_, ?_, ?_, ?_⟩
  · unfold handleLogSaveRemote
    by_cases hp : payloadEmpty p = true
    · simp [hp]
    · simp [hp]
  · intro hp
    unfold handleLogSaveRemote
    simp [hp]
  · intro hp
    simp [mergeDoc, mergeField, hp]
  · intro hp
    simp [mergeDoc, mergeField, hp]
  · intro hp
    simp [mergeDoc, mergeField, hp]

/-- Witness for C3 (amended): a flow-only payload is merge-written, and a
payload without a mood key preserves the stored mood "Sad". -/
theorem logSave_delete_iff_payload_empty_witness :
    handleLogSaveRemote (some (⟨some 3, none, some (some "Sad"), some ["Cramps"]⟩ : LogDoc))
        ⟨3, none, some (some "Tired"), none⟩
      = some (mergeDoc (some ⟨some 3, none, some (some "Sad"), some ["Cramps"]⟩)
          ⟨3, none, some (some "Tired"), none⟩) ∧
    (mergeDoc (some (⟨some 3, none, some (some "Sad"), some ["Cramps"]⟩ : LogDoc))
        ⟨3, some (some Flow.Light), none, none⟩).mood = some (some "Sad") := by
  constructor
  · exact (logSave_delete_iff_payload_empty
      (some ⟨some 3, none, some (some "Sad"), some ["Cramps"]⟩)
      ⟨3, none, some (some "Tired"), none⟩).2.1 (by decide)
  · have h := (logSave_delete_iff_payload_empty
      (some (⟨some 3, none, some (some "Sad"), some ["Cramps"]⟩ : LogDoc))
      ⟨3, some (some Flow.Light), none, none⟩).2.2.2.1 rfl
    exact h.trans rfl

/-- Ascending insertion (stable) for the default string sort of
`logs.filter(l => l.flow).map(l => l.date).sort()`; on `YYYY-MM-DD` strings
lexicographic order is chronological order, so integer order is faithful. -/
def insertAsc (x : Int) : List Int → List Int
  | [] => [x]
  | y :: ys => if x ≤ y then x :: y :: ys else y :: insertAsc x ys

/-- Ascending insertion sort. -/
def sortAsc (l : List Int) : List Int :=
  l.foldr insertAsc []

theorem length_insertAsc (x : Int) (l : List Int) :
    (insertAsc x l).length = l.length + 1 := by
  induction l with
  | nil => rfl
  | cons y ys ih =>
    simp only [insertAsc]
    split
    · simp
    · simp [ih]

theorem length_sortAsc (l : List Int) : (sortAsc l).length = l.length := by
  induction l with
  | nil => rfl
  | cons x xs ih =>
    show (insertAsc x (sortAsc xs)).length = xs.length + 1
    rw [length_insertAsc, ih]

/-- `lastPeriodStart` of the `Calendar` component (App.tsx lines 234-235):
the greatest flow date, or null when no flow is logged. -/
def lastPeriodStart (logs : List DailyLog) : Option Int :=
  (sortAsc ((logs.filter (fun l => l.flow.isSome)).map (fun l => l.date))).getLast?

/-- The four flags returned by `getDateStatus` (the `dateStr` component of
the result is determined by `current`). -/
structure DateStatus where
  isPeriod : Bool
  isToday : Bool
  isPredicted : Bool
  isFertile : Bool
deriving DecidableEq, Repr

/-- `getDateStatus` (App.tsx lines 238-279) for the date `current`, with
`today` the current date.  Day granularity makes `Math.ceil` of the day
quotient exact, and `getDaysBetween` (`Math.round`) coincides with it.
`current > new Date()` is `today < current` (the checked date is midnight of
a calendar day).  When `settings.cycleLength` is 0, JS `% 0` yields NaN and
every NaN comparison is false, so neither prediction flag can be set. -/
def getDateStatus (logs : List DailyLog) (s : UserSettings) (current today : Int) : DateStatus :=
  let log := logs.find? (fun l => l.date == current)
  let isPeriod := match log with
    | some l => l.flow.isSome
    | none => false
  let isToday := current == today
  match lastPeriodStart logs with
  | none => ⟨isPeriod, isToday, false, false⟩
  | some lastStart =>
    if today < current then
      if s.cycleLength = 0 then ⟨isPeriod, isToday, false, false⟩
      else
        let diffDays : Int := ((current - lastStart).natAbs : Int)
        let nextCycleStart := diffDays % s.cycleLength
        let isPredicted :=
          if nextCycleStart < s.periodLength ∧ 0 < diffDays then
            decide (s.cycleLength ≤ diffDays ∧ diffDays < s.cycleLength + s.periodLength)
          else false
        let dayOfCycle := diffDays % s.cycleLength
        let ovulationDay := s.cycleLength - 14
        ⟨isPeriod, isToday, isPredicted,
          decide (ovulationDay - 4 ≤ dayOfCycle ∧ dayOfCycle ≤ ovulationDay + 1)⟩
    else ⟨isPeriod, isToday, false, false⟩

/-- The fertile band in the spec's words (claim C5): a 5-day band ending one
day after the estimated ovulation day (configured cycle length minus 14),
measured on the day-of-cycle offset; inclusively it covers the six offsets
from `bandEnd - 5` to `bandEnd`. -/
def specFertileBand (cycleLength dayOfCycle : Int) : Prop :=
  (cycleLength - 14 + 1) - 5 ≤ dayOfCycle ∧ dayOfCycle ≤ cycleLength - 14 + 1

/-- C5: for a future date and a log list with at least one flow entry, the
calendar marks the date fertile exactly when its day-of-cycle offset from
the last known period start lies in the spec's band ending one day after the
estimated ovulation day (cycle length − 14). -/
theorem calendar_fertile_band (logs : List DailyLog) (s : UserSettings)
    (current today : Int)
    (hflow : logs.filter (fun l => l.flow.isSome) ≠ [])
    (hfut : today < current) (hcl : 0 < s.cycleLength) :
    ∃ ls, lastPeriodStart logs = some ls ∧
      ((getDateStatus logs s current today).isFertile = true ↔
        specFertileBand s.cycleLength (((current - ls).natAbs : Int) % s.cycleLength)) := by
  obtain ⟨ls, hls⟩ : ∃ ls, lastPeriodStart logs = some ls := by
    unfold lastPeriodStart
    have hne : ((logs.filter (fun l => l.flow.isSome)).map (fun l => l.date)) ≠ [] := by
      simpa using hflow
    have hne2 : sortAsc ((logs.filter (fun l => l.flow.isSome)).map (fun l => l.date)) ≠ [] := by
      intro hnil
      apply hne
      have hzero := congrArg List.length hnil
      rw [length_sortAsc] at hzero
      exact List.length_eq_zero.mp hzero
    exact Option.isSome_iff_exists.mp (List.getLast?_isSome.mpr hne2)
  refine ⟨ls, hls, ?_⟩
  simp only [getDateStatus, hls]
  rw [if_pos hfut, if_neg (show ¬s.cycleLength = 0 by omega)]
  simp only [decide_eq_true_eq]
  unfold specFertileBand
  generalize (((current - ls).natAbs : Int) % s.cycleLength) = t
  omega

/-- Witness for C5: one flow entry on day 0, cycle length 28, checking day
12 with today day 1. -/
theorem calendar_fertile_band_witness :
    ∃ ls, lastPeriodStart [(⟨0, some Flow.Medium, none, [], 0⟩ : DailyLog)] = some ls ∧
      ((getDateStatus [(⟨0, some Flow.Medium, none, [], 0⟩ : DailyLog)] ⟨28, 5⟩ 12 1).isFertile = true ↔
        specFertileBand (28 : Int) (((12 - ls).natAbs : Int) % 28)) :=
  calendar_fertile_band [(⟨0, some Flow.Medium, none, [], 0⟩ : DailyLog)] ⟨28, 5⟩ 12 1
    (by decide) (by decide) (by decide)

/-- `SettingsForm.handleSave` (App.tsx lines 474-476): the two form values
are integers (the inputs parse to integers, defaulting to 0), and
`parseInt(String(n))` is the identity on integer-valued numbers, so the
saved object carries exactly the two entered integers. -/
def settingsFormSave (cycleLength periodLength : Int) : UserSettings :=
  ⟨cycleLength, periodLength⟩

/-- `handleSaveSettings` (App.tsx lines 723-732): `setDoc` without merge
overwrites the settings document wholesale, so the stored field map is
exactly the two fields of the new settings object; nothing of the prior
document survives. -/
def handleSaveSettings (_prior : List (String × Int)) (s : UserSettings) : List (String × Int) :=
  [("cycleLength", s.cycleLength), ("periodLength", s.periodLength)]

/-- C6: saving the settings form persists exactly the two entered integers
under the cycle-length and period-length fields, and the resulting document
holds no other field, whatever the prior document contained. -/
theorem saveSettings_wholesale (prior : List (String × Int)) (c p : Int) :
    (handleSaveSettings prior (settingsFormSave c p)).lookup "cycleLength" = some c ∧
    (handleSaveSettings prior (settingsFormSave c p)).lookup "periodLength" = some p ∧
    ∀ k : String, k ≠ "cycleLength" → k ≠ "periodLength" →
      (handleSaveSettings prior (settingsFormSave c p)).lookup k = none := by
  refine ⟨rfl, rfl, ?_⟩
  intro k h1 h2
  have hb1 : (k == "cycleLength") = false := beq_eq_false_iff_ne.mpr h1
  have hb2 : (k == "periodLength") = false := beq_eq_false_iff_ne.mpr h2
  simp [handleSaveSettings, settingsFormSave, List.lookup, hb1, hb2]

/-- Witness for C6: a junk field of the prior document is gone after the
save, and the two entered integers are stored. -/
theorem saveSettings_wholesale_witness :
    (handleSaveSettings [("junk", 7)] (settingsFormSave 31 6)).lookup "cycleLength" = some 31 ∧
    (handleSaveSettings [("junk", 7)] (settingsFormSave 31 6)).lookup "junk" = none :=
  ⟨(saveSettings_wholesale [("junk", 7)] 31 6).1,
   (saveSettings_wholesale [("junk", 7)] 31 6).2.2 "junk" (by decide) (by decide)⟩

/-- The view selector of the navigation shell. -/
inductive AppView
  | dashboard
  | calendar
  | log
  | settings
deriving DecidableEq, Repr

/-- The React state of the `Gyneo` component that the claims mention:
view, logs, settings, loading, sidebar, and the derived cycle statistics. -/
structure AppState where
  view : AppView
  logs : List DailyLog
  settings : UserSettings
  loading : Bool
  sidebarOpen : Bool
  currentDay : Int
  daysUntilNext : Int
  isPeriodToday : Bool

/-- The error callback of the logs `onSnapshot` subscription (App.tsx lines
622-625): it logs to the console and calls `setLoading(false)`; no other
state setter is invoked. -/
def onLogsSnapshotError (s : AppState) : AppState :=
  ⟨s.view, s.logs, s.settings, false, s.sidebarOpen,
   s.currentDay, s.daysUntilNext, s.isPeriodToday⟩

/-- C8: a failed logs read/subscription turns the loading indicator off and
leaves logs, settings, the derived cycle statistics and all remaining state
unchanged. -/
theorem snapshot_error_state (s : AppState) :
    (onLogsSnapshotError s).loading = false ∧
    (onLogsSnapshotError s).logs = s.logs ∧
    (onLogsSnapshotError s).settings = s.settings ∧
    (onLogsSnapshotError s).currentDay = s.currentDay ∧
    (onLogsSnapshotError s).daysUntilNext = s.daysUntilNext ∧
    (onLogsSnapshotError s).isPeriodToday = s.isPeriodToday ∧
    (onLogsSnapshotError s).view = s.view ∧
    (onLogsSnapshotError s).sidebarOpen = s.sidebarOpen :=
  ⟨rfl, rfl, rfl, rfl, rfl, rfl, rfl, rfl⟩

end Gyneo
